import Mathlib

/-!
Verification development for the Lümn Note backend (src/main.py, src/schemas.py).

The backend stores five record kinds (Journal, JournalPage, CalendarEvent,
Sticker, Drawing) in a schemaless document database and exposes create/list
operations over them.  We shallowly embed:

* BSON-like values (`Value`) and documents (`Doc`, association lists of
  string keys, mirroring Python dicts),
* the store adapter (`create_document` / `get_documents`; the adapter module
  `database.py` is not part of the sources, so these are modelled from the
  specification §4.2),
* the Pydantic schema validators of src/schemas.py,
* the route handlers of src/main.py.

Floats carry rationals (`Rat`): the program performs no floating-point
arithmetic on them, it only stores and returns them verbatim.
-/

/-- BSON-like value stored in a document.  `vOid` is the database-internal
identifier type (MongoDB ObjectId); `vFloat` carries a rational since the
program never computes with floats. -/
inductive Value where
  | vStr : String → Value
  | vInt : Int → Value
  | vFloat : Rat → Value
  | vNull : Value
  | vOid : Nat → Value
  | vList : List Value → Value
  | vDoc : List (String × Value) → Value

/-- A stored document: an ordered association list of fields, mirroring a
Python dict (keys are unique in every reachable document). -/
abbrev Doc : Type := List (String × Value)

/-- Filter values appearing in queries built by src/main.py.  Every exact
filter the handlers build is string-valued (`date`, `journal_id`), and the
month query builds a pattern value of the form
`\x7b"$regex": "^" ++ month\x7d`; `regexAnchored month` models that
pattern value (the leading `^` anchor is part of the semantics, the carried
string is the user-supplied `month`). -/
inductive FilterVal where
  | eqStr : String → FilterVal
  | regexAnchored : String → FilterVal

/-- A query filter: mapping from field name to filter value (src/main.py
builds these as Python dicts). -/
abbrev QueryFilter : Type := List (String × FilterVal)

/-- Anchored regex matching as the MongoDB engine performs it for the
patterns this program can build (`"^" ++ month`): the pattern is matched
at the start of the string, `.` matches any character, every other
character matches literally.  This is faithful to PCRE for patterns whose
only metacharacter is `.`; the theorems below apply it only to
metacharacter-free patterns and to patterns containing `.`. -/
def regexMatchChars : List Char → List Char → Bool
  | [], _ => true
  | _ :: _, [] => false
  | p :: ps, c :: cs => (p == '.' || p == c) && regexMatchChars ps cs

/-- Whether a filter value matches a stored field value.  Exact match
requires the stored value to be the equal string; the anchored regex only
matches string values (as in MongoDB). -/
def FilterVal.matches : FilterVal → Value → Bool
  | .eqStr u, Value.vStr s => s == u
  | .eqStr _, _ => false
  | .regexAnchored pat, Value.vStr s => regexMatchChars pat.data s.data
  | .regexAnchored _, _ => false

/-- Whether a document matches a filter: every filter entry must name a
present field whose value matches (MongoDB conjunction semantics). -/
def matchesFilter (doc : Doc) (filt : QueryFilter) : Bool :=
  filt.all fun kv =>
    match List.lookup kv.1 doc with
    | some v => kv.2.matches v
    | none => false

/-- The external document database: the documents of each named collection
in storage (insertion) order, plus the next internal identifier to assign. -/
structure Store where
  colls : String → List Doc
  nextId : Nat

/-- Modelled from the spec: `create_document` of the absent adapter module
database.py (§4.2) — serializes the validated record to a storage document,
inserts it into the named collection (the database assigns the internal
`_id`), and returns the new identifier as an opaque string. -/
def create_document (s : Store) (coll : String) (doc : Doc) : Store × String :=
  let oid := s.nextId
  let stored : Doc := doc ++ [("_id", Value.vOid oid)]
  (⟨fun c => if c = coll then s.colls c ++ [stored] else s.colls c, oid + 1⟩,
   toString oid)

/-- Modelled from the spec: `get_documents` of the absent adapter module
database.py (§4.2) — executes the filter query against the named
collection, returns matching documents in storage order, optionally capped
at `limit` (`none` means uncapped). -/
def get_documents (s : Store) (coll : String) (filt : QueryFilter)
    (limit : Option Nat) : List Doc :=
  let ms := (s.colls coll).filter fun d => matchesFilter d filt
  match limit with
  | some n => ms.take n
  | none => ms

/-- Remove every field with the given key (Python `dict.pop`). -/
def removeKey (d : Doc) (k : String) : Doc :=
  d.filter fun kv => !(kv.1 == k)

/-- Set a key in a document as Python dict assignment does: replace the
value in place when the key is present, otherwise append a new field. -/
def setKey (d : Doc) (k : String) (v : Value) : Doc :=
  if d.any fun kv => kv.1 == k then
    d.map fun kv => if kv.1 == k then (k, v) else kv
  else d ++ [(k, v)]

/-- Identifier translation on egress, embedding the statement
`it["id"] = str(it.pop("_id"))` that every read handler in src/main.py
performs: drop the internal `_id` and expose it as the string field `id`.
Every reachable stored document carries an `_id` assigned by the store (the
fallthrough branch corresponds to the `KeyError` Python would raise and is
unreachable on stored documents). -/
def exposeId (d : Doc) : Doc :=
  match List.lookup "_id" d with
  | some (Value.vOid n) => setKey (removeKey d "_id") "id" (Value.vStr (toString n))
  | _ => d

/-- Python truthiness of an optional string parameter: `None` and the empty
string are falsy (`if date:` in src/main.py). -/
def pyTruthy : Option String → Bool
  | none => false
  | some s => !s.isEmpty

/-- Required string field of a Pydantic model: missing fails, a non-string
value fails, any string (including the empty string) passes. -/
def reqStr (input : Doc) (k : String) : Except String String :=
  match List.lookup k input with
  | some (Value.vStr s) => .ok s
  | some _ => .error (k ++ ": Input should be a valid string")
  | none => .error (k ++ ": Field required")

/-- Defaulted string field: absent yields the declared default. -/
def defStr (input : Doc) (k dflt : String) : Except String String :=
  match List.lookup k input with
  | some (Value.vStr s) => .ok s
  | some _ => .error (k ++ ": Input should be a valid string")
  | none => .ok dflt

/-- Optional string field (`Optional[str] = Field(None, ...)`): absent or
null yields `none`. -/
def optStr (input : Doc) (k : String) : Except String (Option String) :=
  match List.lookup k input with
  | some (Value.vStr s) => .ok (some s)
  | some Value.vNull => .ok none
  | some _ => .error (k ++ ": Input should be a valid string")
  | none => .ok none

/-- Bounded integer field with a default (`font_size: int = Field(16, ge=8,
le=64)`): type check, then the declared inclusive range. -/
def intField (input : Doc) (k : String) (dflt lo hi : Int) : Except String Int :=
  match List.lookup k input with
  | some (Value.vInt n) =>
      if lo ≤ n then
        if n ≤ hi then .ok n
        else .error (k ++ ": Input should be less than or equal to " ++ toString hi)
      else .error (k ++ ": Input should be greater than or equal to " ++ toString lo)
  | some _ => .error (k ++ ": Input should be a valid integer")
  | none => .ok dflt

/-- Defaulted float field; Pydantic coerces integer input to float. -/
def defFloat (input : Doc) (k : String) (dflt : Rat) : Except String Rat :=
  match List.lookup k input with
  | some (Value.vFloat q) => .ok q
  | some (Value.vInt n) => .ok (n : Rat)
  | some _ => .error (k ++ ": Input should be a valid number")
  | none => .ok dflt

/-- Required float field (StrokePoint `x`, `y`). -/
def reqFloat (input : Doc) (k : String) : Except String Rat :=
  match List.lookup k input with
  | some (Value.vFloat q) => .ok q
  | some (Value.vInt n) => .ok (n : Rat)
  | some _ => .error (k ++ ": Input should be a valid number")
  | none => .error (k ++ ": Field required")

/-- Optional float field (StrokePoint `p`, `t`). -/
def optFloat (input : Doc) (k : String) : Except String (Option Rat) :=
  match List.lookup k input with
  | some (Value.vFloat q) => .ok (some q)
  | some (Value.vInt n) => .ok (some (n : Rat))
  | some Value.vNull => .ok none
  | some _ => .error (k ++ ": Input should be a valid number")
  | none => .ok none

/-- Error messages contributed by one field result. -/
def errsOf {α : Type} (r : Except String α) : List String :=
  match r with
  | .ok _ => []
  | .error e => [e]

/-- Serialization of an optional string on model dump (None becomes null). -/
def optStrVal : Option String → Value
  | none => Value.vNull
  | some s => Value.vStr s

/-- Serialization of an optional float on model dump. -/
def optFloatVal : Option Rat → Value
  | none => Value.vNull
  | some q => Value.vFloat q

/-- The Journal model of src/schemas.py. -/
structure Journal where
  title : String
  cover_style : String
  paper_style : String
  owner : Option String

/-- Pydantic validation of a Journal payload: `title` is the only required
field; `cover_style` and `paper_style` have string defaults; `owner` is
optional.  On failure every violated field is reported. -/
def validateJournal (input : Doc) : Except (List String) Journal :=
  match reqStr input "title", defStr input "cover_style" "pastel-pink",
        defStr input "paper_style" "dotted", optStr input "owner" with
  | .ok t, .ok c, .ok p, .ok o => .ok ⟨t, c, p, o⟩
  | r1, r2, r3, r4 => .error (errsOf r1 ++ errsOf r2 ++ errsOf r3 ++ errsOf r4)

/-- Storage document of a validated Journal (model dump order). -/
def Journal.toDoc (j : Journal) : Doc :=
  [("title", Value.vStr j.title), ("cover_style", Value.vStr j.cover_style),
   ("paper_style", Value.vStr j.paper_style), ("owner", optStrVal j.owner)]

/-- The JournalPage model of src/schemas.py. -/
structure JournalPage where
  journal_id : String
  date : String
  content : String
  font : String
  font_size : Int
  color : String
  alignment : String
  background : Option String

/-- Pydantic validation of a JournalPage payload: `journal_id` and `date`
required; `font_size` defaults to 16 and must lie in [8, 64]; `alignment`
is any string (not an enum). -/
def validateJournalPage (input : Doc) : Except (List String) JournalPage :=
  match reqStr input "journal_id", reqStr input "date",
        defStr input "content" "", defStr input "font" "Inter",
        intField input "font_size" 16 8 64, defStr input "color" "#1f2937",
        defStr input "alignment" "left", optStr input "background" with
  | .ok j, .ok d, .ok c, .ok f, .ok n, .ok col, .ok a, .ok b =>
      .ok ⟨j, d, c, f, n, col, a, b⟩
  | r1, r2, r3, r4, r5, r6, r7, r8 =>
      .error (errsOf r1 ++ errsOf r2 ++ errsOf r3 ++ errsOf r4 ++ errsOf r5 ++
              errsOf r6 ++ errsOf r7 ++ errsOf r8)

/-- Storage document of a validated JournalPage. -/
def JournalPage.toDoc (p : JournalPage) : Doc :=
  [("journal_id", Value.vStr p.journal_id), ("date", Value.vStr p.date),
   ("content", Value.vStr p.content), ("font", Value.vStr p.font),
   ("font_size", Value.vInt p.font_size), ("color", Value.vStr p.color),
   ("alignment", Value.vStr p.alignment), ("background", optStrVal p.background)]

/-- The CalendarEvent model of src/schemas.py. -/
structure CalendarEvent where
  date : String
  title : String
  highlight : Option String
  emoji : Option String

/-- Pydantic validation of a CalendarEvent payload: `date` and `title`
required, `highlight` and `emoji` optional. -/
def validateCalendarEvent (input : Doc) : Except (List String) CalendarEvent :=
  match reqStr input "date", reqStr input "title",
        optStr input "highlight", optStr input "emoji" with
  | .ok d, .ok t, .ok h, .ok e => .ok ⟨d, t, h, e⟩
  | r1, r2, r3, r4 => .error (errsOf r1 ++ errsOf r2 ++ errsOf r3 ++ errsOf r4)

/-- Storage document of a validated CalendarEvent. -/
def CalendarEvent.toDoc (e : CalendarEvent) : Doc :=
  [("date", Value.vStr e.date), ("title", Value.vStr e.title),
   ("highlight", optStrVal e.highlight), ("emoji", optStrVal e.emoji)]

/-- The Sticker model of src/schemas.py. -/
structure Sticker where
  date : String
  category : String
  label : String
  x : Rat
  y : Rat
  size : Rat

/-- Pydantic validation of a Sticker payload: `date` and `label` required;
`category` defaults to "decor"; `x`, `y`, `size` are floats with defaults
0, 0, 1.0 and no enforced range. -/
def validateSticker (input : Doc) : Except (List String) Sticker :=
  match reqStr input "date", defStr input "category" "decor",
        reqStr input "label", defFloat input "x" 0, defFloat input "y" 0,
        defFloat input "size" 1 with
  | .ok d, .ok c, .ok l, .ok x, .ok y, .ok sz => .ok ⟨d, c, l, x, y, sz⟩
  | r1, r2, r3, r4, r5, r6 =>
      .error (errsOf r1 ++ errsOf r2 ++ errsOf r3 ++ errsOf r4 ++ errsOf r5 ++
              errsOf r6)

/-- Storage document of a validated Sticker. -/
def Sticker.toDoc (st : Sticker) : Doc :=
  [("date", Value.vStr st.date), ("category", Value.vStr st.category),
   ("label", Value.vStr st.label), ("x", Value.vFloat st.x),
   ("y", Value.vFloat st.y), ("size", Value.vFloat st.size)]

/-- The StrokePoint model of src/schemas.py. -/
structure StrokePoint where
  x : Rat
  y : Rat
  p : Option Rat
  t : Option Rat

/-- Pydantic validation of a StrokePoint: `x`, `y` required floats; `p`,
`t` optional floats. -/
def validateStrokePoint (input : Doc) : Except String StrokePoint :=
  match reqFloat input "x", reqFloat input "y",
        optFloat input "p", optFloat input "t" with
  | .ok x, .ok y, .ok p, .ok t => .ok ⟨x, y, p, t⟩
  | .error e, _, _, _ => .error e
  | _, .error e, _, _ => .error e
  | _, _, .error e, _ => .error e
  | _, _, _, .error e => .error e

/-- Storage document of a validated StrokePoint. -/
def StrokePoint.toDoc (sp : StrokePoint) : Doc :=
  [("x", Value.vFloat sp.x), ("y", Value.vFloat sp.y),
   ("p", optFloatVal sp.p), ("t", optFloatVal sp.t)]

/-- Elementwise validation of the `points` list of a Drawing. -/
def validatePoints : List Value → Except String (List StrokePoint)
  | [] => .ok []
  | Value.vDoc d :: rest =>
      match validateStrokePoint d, validatePoints rest with
      | .ok p, .ok ps => .ok (p :: ps)
      | .error e, _ => .error e
      | _, .error e => .error e
  | _ :: _ => .error "points: Input should be a valid dictionary"

/-- The `points` field of a Drawing: a list of StrokePoints, empty by
default (`default_factory=list`). -/
def pointsField (input : Doc) (k : String) : Except String (List StrokePoint) :=
  match List.lookup k input with
  | some (Value.vList vs) => validatePoints vs
  | some _ => .error (k ++ ": Input should be a valid list")
  | none => .ok []

/-- The Drawing model of src/schemas.py. -/
structure Drawing where
  date : String
  tool : String
  color : String
  size : Rat
  points : List StrokePoint

/-- Pydantic validation of a Drawing payload: `date` required; `tool`,
`color`, `size` defaulted; `points` an optionally empty list of
StrokePoints. -/
def validateDrawing (input : Doc) : Except (List String) Drawing :=
  match reqStr input "date", defStr input "tool" "pen",
        defStr input "color" "#111827", defFloat input "size" 2,
        pointsField input "points" with
  | .ok d, .ok t, .ok c, .ok sz, .ok ps => .ok ⟨d, t, c, sz, ps⟩
  | r1, r2, r3, r4, r5 =>
      .error (errsOf r1 ++ errsOf r2 ++ errsOf r3 ++ errsOf r4 ++ errsOf r5)

/-- Storage document of a validated Drawing; the full point sequence is
serialized, untruncated. -/
def Drawing.toDoc (dr : Drawing) : Doc :=
  [("date", Value.vStr dr.date), ("tool", Value.vStr dr.tool),
   ("color", Value.vStr dr.color), ("size", Value.vFloat dr.size),
   ("points", Value.vList (dr.points.map fun sp => Value.vDoc sp.toDoc))]

/-- Handler POST /api/journals: validate, then insert into the `journal`
collection; a validation failure is the 422 error path. -/
def create_journal (s : Store) (input : Doc) :
    Except (List String) (Store × String) :=
  (validateJournal input).map fun j => create_document s "journal" j.toDoc

/-- Handler GET /api/journals: list up to `limit` journals (the route
declares `limit` between 1 and 200, default 50), identifier-translated. -/
def list_journals (s : Store) (limit : Nat) : List Doc :=
  (get_documents s "journal" [] (some limit)).map exposeId

/-- Handler POST /api/pages. -/
def create_page (s : Store) (input : Doc) :
    Except (List String) (Store × String) :=
  (validateJournalPage input).map fun p => create_document s "journalpage" p.toDoc

/-- The exact-pair filter built by the GET /api/pages handler:
`\x7b"journal_id": journal_id, "date": date\x7d`. -/
def pageFilt (journal_id date : String) : QueryFilter :=
  [("journal_id", .eqStr journal_id), ("date", .eqStr date)]

/-- Handler GET /api/pages: single-result lookup by exact
`(journal_id, date)`; `none` models `HTTPException(status_code=404)`. -/
def get_page (s : Store) (journal_id date : String) : Option Doc :=
  match get_documents s "journalpage" (pageFilt journal_id date) (some 1) with
  | [] => none
  | doc :: _ => some (exposeId doc)

/-- The filter block shared verbatim by list_events (src/main.py lines
116-120), list_stickers (134-138) and list_drawings (152-156): exact
`date` if truthy, else the month regex if truthy, else empty. -/
def dateMonthFilt (date month : Option String) : QueryFilter :=
  if pyTruthy date then [("date", .eqStr (date.getD ""))]
  else if pyTruthy month then [("date", .regexAnchored (month.getD ""))]
  else []

/-- Handler POST /api/events. -/
def create_event (s : Store) (input : Doc) :
    Except (List String) (Store × String) :=
  (validateCalendarEvent input).map fun e => create_document s "calendarevent" e.toDoc

/-- Handler GET /api/events: query by exact date or month prefix, uncapped. -/
def list_events (s : Store) (date month : Option String) : List Doc :=
  (get_documents s "calendarevent" (dateMonthFilt date month) none).map exposeId

/-- Handler POST /api/stickers. -/
def create_sticker (s : Store) (input : Doc) :
    Except (List String) (Store × String) :=
  (validateSticker input).map fun st => create_document s "sticker" st.toDoc

/-- Handler GET /api/stickers. -/
def list_stickers (s : Store) (date month : Option String) : List Doc :=
  (get_documents s "sticker" (dateMonthFilt date month) none).map exposeId

/-- Handler POST /api/drawings. -/
def create_drawing (s : Store) (input : Doc) :
    Except (List String) (Store × String) :=
  (validateDrawing input).map fun dr => create_document s "drawing" dr.toDoc

/-- Handler GET /api/drawings. -/
def list_drawings (s : Store) (date month : Option String) : List Doc :=
  (get_documents s "drawing" (dateMonthFilt date month) none).map exposeId

/-- The page filter of the day aggregate: journal_id and date when the
journal_id query value is truthy, date only otherwise. -/
def dayPageFilt (journal_id : Option String) (date : String) : QueryFilter :=
  if pyTruthy journal_id then
    [("journal_id", .eqStr (journal_id.getD "")), ("date", .eqStr date)]
  else [("date", .eqStr date)]

/-- Handler GET /api/day/(date): the five-field day aggregate, built in
the response-dict order of src/main.py lines 163-189. -/
def get_day (s : Store) (date : String) (journal_id : Option String) : Doc :=
  let page_docs := get_documents s "journalpage" (dayPageFilt journal_id date) (some 1)
  let page :=
    match page_docs with
    | [] => Value.vNull
    | p :: _ => Value.vDoc (exposeId p)
  let evts := (get_documents s "calendarevent" [("date", .eqStr date)] none).map exposeId
  let st := (get_documents s "sticker" [("date", .eqStr date)] none).map exposeId
  let dr := (get_documents s "drawing" [("date", .eqStr date)] none).map exposeId
  [("date", Value.vStr date), ("page", page),
   ("events", Value.vList (evts.map Value.vDoc)),
   ("stickers", Value.vList (st.map Value.vDoc)),
   ("drawings", Value.vList (dr.map Value.vDoc))]

/-! ## Helper lemmas -/

theorem isEmpty_false_of_ne {s : String} (h : s ≠ "") : s.isEmpty = false := by
  rwa [Bool.eq_false_iff, ne_eq, String.isEmpty_iff]

theorem pyTruthy_some {s : String} (h : s ≠ "") : pyTruthy (some s) = true := by
  simp [pyTruthy, isEmpty_false_of_ne h]

theorem dateMonthFilt_date {d : String} (h : d ≠ "") (m : Option String) :
    dateMonthFilt (some d) m = [("date", .eqStr d)] := by
  simp [dateMonthFilt, pyTruthy_some h]

theorem dateMonthFilt_month {dOpt : Option String} (hd : pyTruthy dOpt = false)
    {m : String} (h : m ≠ "") :
    dateMonthFilt dOpt (some m) = [("date", .regexAnchored m)] := by
  simp [dateMonthFilt, hd, pyTruthy_some h]

theorem matchesFilter_nil (doc : Doc) : matchesFilter doc [] = true := rfl

theorem get_documents_all (s : Store) (coll : String) :
    get_documents s coll [] none = s.colls coll := by
  simp [get_documents, matchesFilter]

/-! ## C4 -/

/-- Input payload for a JournalPage create with the two required string
fields and an explicit `font_size`; every other field is defaulted. -/
def pageInput (jid d : String) (n : Int) : Doc :=
  [("journal_id", Value.vStr jid), ("date", Value.vStr d),
   ("font_size", Value.vInt n)]

/-- C4: a JournalPage create input with all other fields valid passes
validation exactly when `font_size` lies in the inclusive range [8, 64]:
strictly below 8 or strictly above 64 fails, exactly 8 and exactly 64
succeed. -/
theorem C4_font_size_bounds (jid d : String) (n : Int) :
    (validateJournalPage (pageInput jid d n)).isOk = true ↔ (8 ≤ n ∧ n ≤ 64) := by
  have h5 : intField (pageInput jid d n) "font_size" 16 8 64 =
      if 8 ≤ n then
        if n ≤ 64 then .ok n
        else .error ("font_size" ++ ": Input should be less than or equal to " ++ toString (64 : Int))
      else .error ("font_size" ++ ": Input should be greater than or equal to " ++ toString (8 : Int)) := rfl
  unfold validateJournalPage
  rw [h5]
  rcases le_or_lt 8 n with h8 | h8
  · rcases le_or_lt n 64 with h64 | h64
    · rw [if_pos h8, if_pos h64]
      simp [pageInput, reqStr, defStr, optStr, List.lookup, Except.isOk, Except.toBool]
      exact ⟨h8, h64⟩
    · rw [if_pos h8, if_neg (by omega : ¬ n ≤ 64)]
      simp [pageInput, reqStr, defStr, optStr, List.lookup, Except.isOk, Except.toBool]
      omega
  · rw [if_neg (by omega : ¬ (8:Int) ≤ n)]
    simp [pageInput, reqStr, defStr, optStr, List.lookup, Except.isOk, Except.toBool]
    omega

/-! ## C3 -/

/-- C3: for the CalendarEvent, Sticker and Drawing list operations the
first non-empty of (date, month) wins: with both non-empty the filter is
the exact date alone (month ignored); with only month non-empty the month
pattern is used; with neither non-empty no filter is applied and the whole
collection is returned uncapped. -/
theorem C3_first_nonempty_wins (s : Store) (d m : String) (hd : d ≠ "") (hm : m ≠ "") :
    (list_events s (some d) (some m) = list_events s (some d) none ∧
     list_events s (some d) (some m) =
       ((s.colls "calendarevent").filter fun doc =>
         matchesFilter doc [("date", .eqStr d)]).map exposeId ∧
     list_events s none (some m) =
       ((s.colls "calendarevent").filter fun doc =>
         matchesFilter doc [("date", .regexAnchored m)]).map exposeId ∧
     list_events s none none = (s.colls "calendarevent").map exposeId) ∧
    (list_stickers s (some d) (some m) = list_stickers s (some d) none ∧
     list_stickers s (some d) (some m) =
       ((s.colls "sticker").filter fun doc =>
         matchesFilter doc [("date", .eqStr d)]).map exposeId ∧
     list_stickers s none (some m) =
       ((s.colls "sticker").filter fun doc =>
         matchesFilter doc [("date", .regexAnchored m)]).map exposeId ∧
     list_stickers s none none = (s.colls "sticker").map exposeId) ∧
    (list_drawings s (some d) (some m) = list_drawings s (some d) none ∧
     list_drawings s (some d) (some m) =
       ((s.colls "drawing").filter fun doc =>
         matchesFilter doc [("date", .eqStr d)]).map exposeId ∧
     list_drawings s none (some m) =
       ((s.colls "drawing").filter fun doc =>
         matchesFilter doc [("date", .regexAnchored m)]).map exposeId ∧
     list_drawings s none none = (s.colls "drawing").map exposeId) := by
  have hfd := dateMonthFilt_date hd (some m)
  have hfd2 := dateMonthFilt_date hd none
  have hfm : dateMonthFilt none (some m) = [("date", .regexAnchored m)] :=
    @dateMonthFilt_month none rfl m hm
  have hfn : dateMonthFilt none none = ([] : QueryFilter) := rfl
  refine ⟨⟨?_, ?_, ?_, ?_⟩, ⟨?_, ?_, ?_, ?_⟩, ⟨?_, ?_, ?_, ?_⟩⟩ <;>
    simp [list_events, list_stickers, list_drawings, hfd, hfd2, hfm, hfn,
          get_documents, matchesFilter]

/-- Stored March event of the worked example of spec §8. -/
def evMarch : Doc :=
  [("date", Value.vStr "2024-03-05"), ("title", Value.vStr "Spring walk"),
   ("highlight", Value.vNull), ("emoji", Value.vNull), ("_id", Value.vOid 0)]

/-- Stored April event of the worked example of spec §8. -/
def evApril : Doc :=
  [("date", Value.vStr "2024-04-01"), ("title", Value.vStr "Picnic"),
   ("highlight", Value.vNull), ("emoji", Value.vNull), ("_id", Value.vOid 1)]

/-- A concrete store holding the two events of the spec §8 example. -/
def demoStore : Store :=
  ⟨fun c => if c = "calendarevent" then [evMarch, evApril] else [], 2⟩

/-- Witness for C3 at the spec §8 example: with both `date="2024-04-01"`
and `month="2024-03"` supplied, the listing equals the date-only listing. -/
theorem C3_witness :
    list_events demoStore (some "2024-04-01") (some "2024-03") =
      list_events demoStore (some "2024-04-01") none :=
  (C3_first_nonempty_wins demoStore "2024-04-01" "2024-03"
    (by decide) (by decide)).1.1

/-! ## C5 / C9 -/

/-- C5: the JournalPage get operation returns the head of the stored pages
matching the exact `(journal_id, date)` pair, identifier-translated; it
returns the not-found condition (`none`, mapped to HTTP 404) exactly when
zero stored pages match, and otherwise a single page record. -/
theorem C5_get_page_not_found (s : Store) (jid d : String) :
    get_page s jid d =
      (((s.colls "journalpage").filter fun doc =>
          matchesFilter doc (pageFilt jid d)).head?).map exposeId ∧
    (get_page s jid d = none ↔
      ((s.colls "journalpage").filter fun doc =>
          matchesFilter doc (pageFilt jid d)) = []) := by
  cases h : (s.colls "journalpage").filter fun doc => matchesFilter doc (pageFilt jid d) with
  | nil => constructor <;> simp [get_page, get_documents, h]
  | cons a t => constructor <;> simp [get_page, get_documents, h]

/-- C9: even when several stored pages match the `(journal_id, date)`
pair (uniqueness is not enforced at write time), the get operation
returns exactly the first matching document in storage order. -/
theorem C9_first_match_returned (s : Store) (jid d : String) (p : Doc)
    (rest : List Doc)
    (h : ((s.colls "journalpage").filter fun doc =>
        matchesFilter doc (pageFilt jid d)) = p :: rest) :
    get_page s jid d = some (exposeId p) := by
  simp [get_page, get_documents, h]

/-- First stored page of the duplicate-pair store. -/
def pgOne : Doc :=
  [("journal_id", Value.vStr "j1"), ("date", Value.vStr "2024-05-01"),
   ("content", Value.vStr "first"), ("font", Value.vStr "Inter"),
   ("font_size", Value.vInt 16), ("color", Value.vStr "#1f2937"),
   ("alignment", Value.vStr "left"), ("background", Value.vNull),
   ("_id", Value.vOid 0)]

/-- Second stored page with the same `(journal_id, date)` pair. -/
def pgTwo : Doc :=
  [("journal_id", Value.vStr "j1"), ("date", Value.vStr "2024-05-01"),
   ("content", Value.vStr "second"), ("font", Value.vStr "Inter"),
   ("font_size", Value.vInt 16), ("color", Value.vStr "#1f2937"),
   ("alignment", Value.vStr "left"), ("background", Value.vNull),
   ("_id", Value.vOid 1)]

/-- A store holding two pages for the same `(journal_id, date)` pair. -/
def dupPageStore : Store :=
  ⟨fun c => if c = "journalpage" then [pgOne, pgTwo] else [], 2⟩

/-- Witness for C9: with two stored pages for `("j1", "2024-05-01")`, the
get operation returns the first one. -/
theorem C9_witness : get_page dupPageStore "j1" "2024-05-01" = some (exposeId pgOne) :=
  C9_first_match_returned dupPageStore "j1" "2024-05-01" pgOne [pgTwo] rfl

/-! ## C10 -/

/-- C10: a day-aggregate request whose `journal_id` query value is the
empty string behaves exactly like one with no `journal_id`: the whole
aggregate coincides and the page filter constrains the date only, so a
page of any journal can be returned. -/
theorem C10_empty_journal_id (s : Store) (d : String) :
    get_day s d (some "") = get_day s d none ∧
    dayPageFilt (some "") d = [("date", .eqStr d)] := by
  constructor <;> rfl


/-! ## Lookup lemmas about identifier translation -/

theorem lookup_removeKey_ne (d : Doc) (k k2 : String) (h : k2 ≠ k) :
    List.lookup k2 (removeKey d k) = List.lookup k2 d := by
  induction d with
  | nil => rfl
  | cons kv t ih =>
    by_cases hk : kv.1 = k
    · have h1 : (!(kv.1 == k)) = false := by simp [hk]
      have h2 : (k2 == kv.1) = false := by simp [hk, h]
      simp only [removeKey, List.filter_cons, h1, List.lookup, h2, if_neg] at ih ⊢
      simpa [removeKey] using ih
    · have h1 : (!(kv.1 == k)) = true := by simp [hk]
      by_cases hp : k2 = kv.1
      · simp [removeKey, List.filter_cons, h1, List.lookup, beq_iff_eq.mpr hp]
      · have h2 : (k2 == kv.1) = false := beq_eq_false_iff_ne.mpr hp
        simp only [removeKey, List.filter_cons, h1, if_pos, List.lookup, h2] at ih ⊢
        simpa [removeKey] using ih

theorem lookup_keyRepl_ne (d : Doc) (k k2 : String) (v : Value) (h : k2 ≠ k) :
    List.lookup k2 (d.map fun kv => if kv.1 == k then (k, v) else kv) =
      List.lookup k2 d := by
  induction d with
  | nil => rfl
  | cons kv t ih =>
    simp only [List.map_cons]
    by_cases hk : kv.1 = k
    · rw [if_pos (beq_iff_eq.mpr hk)]
      have h2 : (k2 == k) = false := beq_eq_false_iff_ne.mpr h
      have h3 : (k2 == kv.1) = false :=
        beq_eq_false_iff_ne.mpr fun hh => h (hh.trans hk)
      simp only [List.lookup, h2, h3]
      simpa using ih
    · rw [if_neg (by simp [hk] : ¬ ((kv.1 == k) = true))]
      by_cases hp : k2 = kv.1
      · simp [List.lookup, beq_iff_eq.mpr hp]
      · simp only [List.lookup, beq_eq_false_iff_ne.mpr hp]
        simpa using ih

theorem lookup_append_single_ne (d : Doc) (k k2 : String) (v : Value) (h : k2 ≠ k) :
    List.lookup k2 (d ++ [(k, v)]) = List.lookup k2 d := by
  induction d with
  | nil => simp [List.lookup, beq_eq_false_iff_ne.mpr h]
  | cons kv t ih =>
    by_cases hp : k2 = kv.1
    · simp [List.lookup, beq_iff_eq.mpr hp]
    · simp [List.lookup, beq_eq_false_iff_ne.mpr hp, ih]

theorem lookup_setKey_ne (d : Doc) (k k2 : String) (v : Value) (h : k2 ≠ k) :
    List.lookup k2 (setKey d k v) = List.lookup k2 d := by
  unfold setKey
  by_cases ha : (d.any fun kv => kv.1 == k) = true
  · rw [if_pos ha]
    exact lookup_keyRepl_ne d k k2 v h
  · rw [if_neg ha]
    exact lookup_append_single_ne d k k2 v h

theorem lookup_exposeId_ne (doc : Doc) (k : String) (h1 : k ≠ "_id")
    (h2 : k ≠ "id") :
    List.lookup k (exposeId doc) = List.lookup k doc := by
  unfold exposeId
  cases h : List.lookup "_id" doc with
  | none => rfl
  | some v =>
    cases v with
    | vOid n =>
      rw [lookup_setKey_ne _ _ _ _ h2, lookup_removeKey_ne _ _ _ h1]
    | vStr s2 => rfl
    | vInt n => rfl
    | vFloat q => rfl
    | vNull => rfl
    | vList l2 => rfl
    | vDoc d2 => rfl

/-! ## C6 -/

/-- Whether a stored record's `date` field exactly equals the requested
date (the spec's wording for the day aggregate sub-queries). -/
def dateIs (doc : Doc) (d : String) : Bool :=
  match List.lookup "date" doc with
  | some (Value.vStr s) => s == d
  | _ => false

theorem filter_matches_date (l : List Doc) (d : String) :
    (l.filter fun doc => matchesFilter doc [("date", FilterVal.eqStr d)]) =
      l.filter fun doc => dateIs doc d := by
  refine List.filter_congr fun doc _ => ?_
  cases h : List.lookup "date" doc with
  | none => simp [matchesFilter, dateIs, h]
  | some v => cases v <;> simp [matchesFilter, dateIs, h, FilterVal.matches]

/-- C6: the day aggregate has exactly the five fields `date`, `page`,
`events`, `stickers`, `drawings` in that order; `date` echoes the request;
`page` is the first stored page matching the page filter, or an explicit
null (never an error) when none matches; `events`, `stickers` and
`drawings` are the identifier-translated lists of exactly the stored
records of each kind whose `date` field equals the requested date; and
identifier translation leaves the `points` of a drawing untouched, so the
full point sequences are returned untruncated. -/
theorem C6_day_aggregate (s : Store) (d : String) (jidO : Option String) :
    (get_day s d jidO).map Prod.fst =
      ["date", "page", "events", "stickers", "drawings"] ∧
    List.lookup "date" (get_day s d jidO) = some (Value.vStr d) ∧
    List.lookup "page" (get_day s d jidO) =
      some (match ((s.colls "journalpage").filter fun doc =>
              matchesFilter doc (dayPageFilt jidO d)).head? with
            | none => Value.vNull
            | some p => Value.vDoc (exposeId p)) ∧
    List.lookup "events" (get_day s d jidO) =
      some (Value.vList ((((s.colls "calendarevent").filter fun doc =>
        dateIs doc d).map exposeId).map Value.vDoc)) ∧
    List.lookup "stickers" (get_day s d jidO) =
      some (Value.vList ((((s.colls "sticker").filter fun doc =>
        dateIs doc d).map exposeId).map Value.vDoc)) ∧
    List.lookup "drawings" (get_day s d jidO) =
      some (Value.vList ((((s.colls "drawing").filter fun doc =>
        dateIs doc d).map exposeId).map Value.vDoc)) ∧
    (∀ doc : Doc, List.lookup "points" (exposeId doc) = List.lookup "points" doc) := by
  refine ⟨?_, ?_, ?_, ?_, ?_, ?_,
    fun doc => lookup_exposeId_ne doc "points" (by decide) (by decide)⟩ <;>
  cases h : (s.colls "journalpage").filter fun doc =>
      matchesFilter doc (dayPageFilt jidO d) with
  | nil => simp [get_day, get_documents, h, List.lookup, filter_matches_date]
  | cons a t => simp [get_day, get_documents, h, List.lookup, filter_matches_date]

/-! ## C1 -/

/-- The PCRE metacharacters; a month string avoiding all of them is
matched literally by the regex engine. -/
def regexMetachars : List Char :=
  ['.', '^', '$', '*', '+', '?', '(', ')', '[', ']', '\x7b', '\x7d', '|', '\\']

/-- Whether a string contains no regex metacharacter. -/
def regexFree (s : String) : Bool :=
  s.data.all fun c => !(regexMetachars.contains c)

theorem regexMatchChars_eq_isPrefixOf (p : List Char)
    (h : (p.all fun c => !(regexMetachars.contains c)) = true) :
    ∀ l : List Char, regexMatchChars p l = p.isPrefixOf l := by
  induction p with
  | nil => intro l; cases l <;> rfl
  | cons c cs ih =>
    intro l
    have hc : ¬ (c = '.') := by
      intro hdot
      rw [List.all_cons, Bool.and_eq_true] at h
      rw [hdot] at h
      simp [regexMetachars] at h
    have hcs : (cs.all fun c => !(regexMetachars.contains c)) = true := by
      rw [List.all_cons, Bool.and_eq_true] at h
      exact h.2
    cases l with
    | nil => rfl
    | cons a as =>
      simp only [regexMatchChars, List.isPrefixOf, ih hcs,
                 beq_eq_false_iff_ne.mpr hc, Bool.false_or]

/-- A stored record whose `date` field is a string literally starting
with the given prefix string. -/
def datePrefixIs (doc : Doc) (pre : String) : Bool :=
  match List.lookup "date" doc with
  | some (Value.vStr s) => pre.data.isPrefixOf s.data
  | _ => false

/-- C1 counterexample: with the spec §8 events stored, the month string
`"2024.03"` (which contains the regex metacharacter `.`) matches the
stored event dated `"2024-03-05"` although that date does not literally
start with `"2024.03"` — the month query is a general regex, not a
literal prefix match, for months containing metacharacters. -/
theorem C1_counterexample :
    list_events demoStore none (some "2024.03") = [exposeId evMarch] ∧
    ("2024.03".data.isPrefixOf "2024-03-05".data) = false := by
  constructor
  · rfl
  · rfl

/-- C1 as amended: for every month string free of regex metacharacters
(in particular every well-formed `YYYY-MM`), the month query on the
CalendarEvent, Sticker and Drawing list operations matches exactly the
stored records whose `date` field literally starts with that string; for
month strings containing metacharacters the filter is a general anchored
regex match instead. -/
theorem C1_month_literal_for_metachar_free (s : Store) (month : String)
    (hm : month ≠ "") (hfree : regexFree month = true) :
    list_events s none (some month) =
      ((s.colls "calendarevent").filter fun doc =>
        datePrefixIs doc month).map exposeId ∧
    list_stickers s none (some month) =
      ((s.colls "sticker").filter fun doc =>
        datePrefixIs doc month).map exposeId ∧
    list_drawings s none (some month) =
      ((s.colls "drawing").filter fun doc =>
        datePrefixIs doc month).map exposeId := by
  have hfm : dateMonthFilt none (some month) = [("date", .regexAnchored month)] :=
    @dateMonthFilt_month none rfl month hm
  have hfilt : ∀ l : List Doc,
      (l.filter fun doc => matchesFilter doc [("date", .regexAnchored month)]) =
        l.filter fun doc => datePrefixIs doc month := by
    intro l
    refine List.filter_congr fun doc _ => ?_
    cases h : List.lookup "date" doc with
    | none => simp [matchesFilter, datePrefixIs, h]
    | some v =>
      cases v <;>
        simp [matchesFilter, datePrefixIs, h, FilterVal.matches,
              regexMatchChars_eq_isPrefixOf month.data hfree]
  refine ⟨?_, ?_, ?_⟩ <;>
    simp [list_events, list_stickers, list_drawings, hfm, get_documents, hfilt]

/-- Witness for the amended C1: the metacharacter-free month "2024-03"
on the spec §8 store returns exactly the records whose date literally
starts with it. -/
theorem C1_witness :
    list_events demoStore none (some "2024-03") =
      ((demoStore.colls "calendarevent").filter fun doc =>
        datePrefixIs doc "2024-03").map exposeId :=
  (C1_month_literal_for_metachar_free demoStore "2024-03"
    (by decide) (by decide)).1

/-! ## C2 -/

/-- A store with all collections empty. -/
def emptyStore : Store := ⟨fun _ => [], 0⟩

/-- C2 counterexample: a Journal create input whose `title` is present but
equal to the empty string passes validation (the schema declares no
minimum length) and the record is persisted into the `journal`
collection. -/
theorem C2_counterexample :
    validateJournal [("title", Value.vStr "")] =
      Except.ok ⟨"", "pastel-pink", "dotted", none⟩ ∧
    ((create_journal emptyStore [("title", Value.vStr "")]).map
        fun r => r.1.colls "journal") =
      Except.ok [[("title", Value.vStr ""), ("cover_style", Value.vStr "pastel-pink"),
                  ("paper_style", Value.vStr "dotted"), ("owner", Value.vNull),
                  ("_id", Value.vOid 0)]] :=
  ⟨rfl, rfl⟩

/-- C2 as amended: Journal validation only requires `title` to be present
as a string — every string title, the empty string included, passes
validation and the record is persisted; a missing `title` fails with the
required-field ValidationError. -/
theorem C2_title_presence_only (s : Store) (t : String) :
    validateJournal [("title", Value.vStr t)] =
      Except.ok ⟨t, "pastel-pink", "dotted", none⟩ ∧
    ((create_journal s [("title", Value.vStr t)]).map
        fun r => r.1.colls "journal") =
      Except.ok (s.colls "journal" ++
        [[("title", Value.vStr t), ("cover_style", Value.vStr "pastel-pink"),
          ("paper_style", Value.vStr "dotted"), ("owner", Value.vNull),
          ("_id", Value.vOid s.nextId)]]) ∧
    validateJournal [] = Except.error ["title: Field required"] := by
  have hv : validateJournal [("title", Value.vStr t)] =
      Except.ok ⟨t, "pastel-pink", "dotted", none⟩ := rfl
  refine ⟨hv, ?_, rfl⟩
  simp [create_journal, hv, create_document, Journal.toDoc, optStrVal,
        Except.map]

/-! ## C7 support lemmas -/

theorem lookup_none_of_all_ne (d : Doc) (k : String)
    (h : (d.all fun kv => !(kv.1 == k)) = true) : List.lookup k d = none := by
  induction d with
  | nil => rfl
  | cons kv t ih =>
    rw [List.all_cons, Bool.and_eq_true] at h
    have hk : (k == kv.1) = false := by
      rcases h with ⟨h1, _⟩
      simp only [Bool.not_eq_true'] at h1
      exact beq_eq_false_iff_ne.mpr fun hh => by
        simp [hh.symm] at h1
    simp [List.lookup, hk, ih h.2]

theorem lookup_fresh_append (d : Doc) (k : String) (v : Value)
    (h : (d.all fun kv => !(kv.1 == k)) = true) :
    List.lookup k (d ++ [(k, v)]) = some v := by
  induction d with
  | nil => simp [List.lookup]
  | cons kv t ih =>
    rw [List.all_cons, Bool.and_eq_true] at h
    have hk : (k == kv.1) = false := by
      rcases h with ⟨h1, _⟩
      simp only [Bool.not_eq_true'] at h1
      exact beq_eq_false_iff_ne.mpr fun hh => by
        simp [hh.symm] at h1
    simp [List.lookup, hk, ih h.2]

theorem removeKey_of_all_ne (d : Doc) (k : String)
    (h : (d.all fun kv => !(kv.1 == k)) = true) : removeKey d k = d :=
  List.filter_eq_self.mpr (List.all_eq_true.mp h)

theorem exposeId_fresh (doc : Doc) (n : Nat)
    (h1 : (doc.all fun kv => !(kv.1 == "_id")) = true)
    (h2 : (doc.all fun kv => !(kv.1 == "id")) = true) :
    exposeId (doc ++ [("_id", Value.vOid n)]) =
      doc ++ [("id", Value.vStr (toString n))] := by
  unfold exposeId
  rw [lookup_fresh_append doc "_id" (Value.vOid n) h1]
  have hrm : removeKey (doc ++ [("_id", Value.vOid n)]) "_id" = doc := by
    unfold removeKey
    rw [List.filter_append]
    have e1 : List.filter (fun kv => !(kv.1 == "_id")) doc = doc :=
      removeKey_of_all_ne doc "_id" h1
    rw [e1]
    simp [List.filter]
  rw [hrm]
  have hany : (List.any doc fun kv => kv.1 == "id") = false := by
    rw [List.any_eq_false]
    intro kv hmem
    have hh := List.all_eq_true.mp h2 kv hmem
    simp only [Bool.not_eq_true'] at hh
    simp [hh]
  simp [setKey, hany]

theorem mem_list_exposed (s : Store) (coll : String) (doc : Doc)
    (filt : QueryFilter)
    (hm : matchesFilter (doc ++ [("_id", Value.vOid s.nextId)]) filt = true) :
    exposeId (doc ++ [("_id", Value.vOid s.nextId)]) ∈
      (get_documents (create_document s coll doc).1 coll filt none).map exposeId := by
  apply List.mem_map_of_mem
  have hcoll : (create_document s coll doc).1.colls coll =
      s.colls coll ++ [doc ++ [("_id", Value.vOid s.nextId)]] := by
    simp [create_document]
  simp only [get_documents, hcoll]
  exact List.mem_filter.mpr
    ⟨List.mem_append_right _ (List.mem_singleton_self _), hm⟩

/-! ## C7 -/

/-- A store already holding one page for `("j1", "2024-05-01")`. -/
def onePageStore : Store :=
  ⟨fun c => if c = "journalpage" then [pgOne] else [], 1⟩

/-- C7 counterexample: with a page for `("j1", "2024-05-01")` already
stored, creating a second page for the same pair (content "second") and
then reading back by the matching `(journal_id, date)` filter returns the
pre-existing page (content "first"), not a record equal to the new input —
the create-then-read round trip fails on JournalPage duplicates. -/
theorem C7_counterexample :
    ((create_page onePageStore
        [("journal_id", Value.vStr "j1"), ("date", Value.vStr "2024-05-01"),
         ("content", Value.vStr "second")]).map
      fun r => get_page r.1 "j1" "2024-05-01") =
      Except.ok (some (exposeId pgOne)) ∧
    List.lookup "content" (exposeId pgOne) = some (Value.vStr "first") ∧
    List.lookup "content" (exposeId pgOne) ≠ some (Value.vStr "second") := by
  refine ⟨rfl, rfl, fun h => ?_⟩
  have e : List.lookup "content" (exposeId pgOne) = some (Value.vStr "first") := rfl
  rw [e] at h
  exact absurd (Value.vStr.inj (Option.some.inj h)) (by decide)

/-- C7 as amended: create-then-list-by-matching-filter returns the
validated record (input plus defaults) with the new string identifier
appended, for every kind — unconditionally for CalendarEvent, Sticker and
Drawing (whose date-filtered lists are uncapped), for Journal provided the
collection stays within the requested listing limit, and for JournalPage
provided no page for the same `(journal_id, date)` pair is already stored
(otherwise the earlier page is returned instead). -/
theorem C7_round_trip (s : Store) (inJ inP inE inSt inD : Doc)
    (j : Journal) (p : JournalPage) (e : CalendarEvent) (st : Sticker)
    (dr : Drawing) (limit : Nat)
    (hJ : validateJournal inJ = .ok j)
    (hlim : (s.colls "journal").length < limit)
    (hP : validateJournalPage inP = .ok p)
    (hPu : ((s.colls "journalpage").filter fun doc =>
        matchesFilter doc (pageFilt p.journal_id p.date)) = [])
    (hE : validateCalendarEvent inE = .ok e)
    (hS : validateSticker inSt = .ok st)
    (hD : validateDrawing inD = .ok dr) :
    (∃ s2 oid, create_journal s inJ = .ok (s2, oid) ∧
      (j.toDoc ++ [("id", Value.vStr oid)]) ∈ list_journals s2 limit) ∧
    (∃ s2 oid, create_page s inP = .ok (s2, oid) ∧
      get_page s2 p.journal_id p.date =
        some (p.toDoc ++ [("id", Value.vStr oid)])) ∧
    (∃ s2 oid, create_event s inE = .ok (s2, oid) ∧
      (e.toDoc ++ [("id", Value.vStr oid)]) ∈
        list_events s2 (some e.date) none) ∧
    (∃ s2 oid, create_sticker s inSt = .ok (s2, oid) ∧
      (st.toDoc ++ [("id", Value.vStr oid)]) ∈
        list_stickers s2 (some st.date) none) ∧
    (∃ s2 oid, create_drawing s inD = .ok (s2, oid) ∧
      (dr.toDoc ++ [("id", Value.vStr oid)]) ∈
        list_drawings s2 (some dr.date) none) := by
  refine ⟨?_, ?_, ?_, ?_, ?_⟩
  · -- Journal
    refine ⟨(create_document s "journal" j.toDoc).1, toString s.nextId,
      by simp [create_journal, hJ, Except.map, create_document], ?_⟩
    have hst : (create_document s "journal" j.toDoc).1.colls "journal" =
        s.colls "journal" ++ [j.toDoc ++ [("_id", Value.vOid s.nextId)]] := by
      simp [create_document]
    simp only [list_journals, get_documents, hst, matchesFilter, List.all_nil,
               List.filter_true]
    rw [List.take_of_length_le (by simp; omega)]
    rw [← exposeId_fresh j.toDoc s.nextId rfl rfl]
    exact List.mem_map_of_mem _
      (List.mem_append_right _ (List.mem_singleton_self _))
  · -- JournalPage
    refine ⟨(create_document s "journalpage" p.toDoc).1, toString s.nextId,
      by simp [create_page, hP, Except.map, create_document], ?_⟩
    have hst : (create_document s "journalpage" p.toDoc).1.colls "journalpage" =
        s.colls "journalpage" ++ [p.toDoc ++ [("_id", Value.vOid s.nextId)]] := by
      simp [create_document]
    have hm : matchesFilter (p.toDoc ++ [("_id", Value.vOid s.nextId)])
        (pageFilt p.journal_id p.date) = true := by
      simp [matchesFilter, pageFilt, JournalPage.toDoc, List.lookup,
            FilterVal.matches]
    simp only [get_page, get_documents, hst, List.filter_append, hPu,
               List.nil_append, List.filter_cons, hm, if_pos,
               List.filter_nil, List.take_succ_cons, List.take_zero]
    rw [exposeId_fresh p.toDoc s.nextId rfl rfl]
  · -- CalendarEvent
    refine ⟨(create_document s "calendarevent" e.toDoc).1, toString s.nextId,
      by simp [create_event, hE, Except.map, create_document], ?_⟩
    have hmm : matchesFilter (e.toDoc ++ [("_id", Value.vOid s.nextId)])
        (dateMonthFilt (some e.date) none) = true := by
      by_cases hd : e.date = ""
      · rw [hd]
        rfl
      · rw [dateMonthFilt_date hd]
        simp [matchesFilter, CalendarEvent.toDoc, List.lookup, FilterVal.matches]
    have hmem := mem_list_exposed s "calendarevent" e.toDoc _ hmm
    rw [exposeId_fresh e.toDoc s.nextId rfl rfl] at hmem
    exact hmem
  · -- Sticker
    refine ⟨(create_document s "sticker" st.toDoc).1, toString s.nextId,
      by simp [create_sticker, hS, Except.map, create_document], ?_⟩
    have hmm : matchesFilter (st.toDoc ++ [("_id", Value.vOid s.nextId)])
        (dateMonthFilt (some st.date) none) = true := by
      by_cases hd : st.date = ""
      · rw [hd]
        rfl
      · rw [dateMonthFilt_date hd]
        simp [matchesFilter, Sticker.toDoc, List.lookup, FilterVal.matches]
    have hmem := mem_list_exposed s "sticker" st.toDoc _ hmm
    rw [exposeId_fresh st.toDoc s.nextId rfl rfl] at hmem
    exact hmem
  · -- Drawing
    refine ⟨(create_document s "drawing" dr.toDoc).1, toString s.nextId,
      by simp [create_drawing, hD, Except.map, create_document], ?_⟩
    have hmm : matchesFilter (dr.toDoc ++ [("_id", Value.vOid s.nextId)])
        (dateMonthFilt (some dr.date) none) = true := by
      by_cases hd : dr.date = ""
      · rw [hd]
        rfl
      · rw [dateMonthFilt_date hd]
        simp [matchesFilter, Drawing.toDoc, List.lookup, FilterVal.matches]
    have hmem := mem_list_exposed s "drawing" dr.toDoc _ hmm
    rw [exposeId_fresh dr.toDoc s.nextId rfl rfl] at hmem
    exact hmem

/-- Concrete Journal create input for the round-trip witness. -/
def jIn : Doc := [("title", Value.vStr "My journal")]

/-- Its validated record. -/
def jRec : Journal := ⟨"My journal", "pastel-pink", "dotted", none⟩

/-- Concrete JournalPage create input for the round-trip witness. -/
def pIn : Doc :=
  [("journal_id", Value.vStr "j1"), ("date", Value.vStr "2024-05-01")]

/-- Its validated record. -/
def pRec : JournalPage :=
  ⟨"j1", "2024-05-01", "", "Inter", 16, "#1f2937", "left", none⟩

/-- Concrete CalendarEvent create input for the round-trip witness. -/
def eIn : Doc :=
  [("date", Value.vStr "2024-03-05"), ("title", Value.vStr "Walk")]

/-- Its validated record. -/
def eRec : CalendarEvent := ⟨"2024-03-05", "Walk", none, none⟩

/-- Concrete Sticker create input for the round-trip witness. -/
def stIn : Doc :=
  [("date", Value.vStr "2024-03-05"), ("label", Value.vStr "flower")]

/-- Its validated record. -/
def stRec : Sticker := ⟨"2024-03-05", "decor", "flower", 0, 0, 1⟩

/-- Concrete Drawing create input for the round-trip witness. -/
def dIn : Doc := [("date", Value.vStr "2024-03-05")]

/-- Its validated record. -/
def dRec : Drawing := ⟨"2024-03-05", "pen", "#111827", 2, []⟩

/-- Witness for the amended C7 on the empty store: the freshly created
event, with identifier "0" appended, appears in the date-filtered event
listing. -/
theorem C7_witness :
    (eRec.toDoc ++ [("id", Value.vStr "0")]) ∈
      list_events (create_document emptyStore "calendarevent" eRec.toDoc).1
        (some "2024-03-05") none := by
  obtain ⟨s2, oid, heq, hmem⟩ :=
    (C7_round_trip emptyStore jIn pIn eIn stIn dIn jRec pRec eRec stRec dRec 50
      rfl (by decide) rfl rfl rfl rfl rfl).2.2.1
  have h0 : create_event emptyStore eIn =
      .ok ((create_document emptyStore "calendarevent" eRec.toDoc).1, "0") := rfl
  rw [h0] at heq
  obtain ⟨hs, ho⟩ := Prod.mk.inj (Except.ok.inj heq)
  subst hs
  subst ho
  exact hmem

/-! ## C8 -/

/-- A document that carries a store-assigned internal identifier (the
MongoDB invariant for every stored document). -/
def oidPresent (doc : Doc) : Bool :=
  match List.lookup "_id" doc with
  | some (Value.vOid _) => true
  | _ => false

/-- Every document of every collection of the backend carries an internal
identifier (holds for every store reachable through `create_document`). -/
def storeHasIds (s : Store) : Bool :=
  ["journal", "journalpage", "calendarevent", "sticker", "drawing"].all
    fun c => (s.colls c).all oidPresent

/-- An egress record in the exposed shape: no internal `_id` field
remains, and a plain string field `id` is present. -/
def exposedIdOk (d : Doc) : Bool :=
  (d.all fun kv => !(kv.1 == "_id")) &&
  (match List.lookup "id" d with
   | some (Value.vStr _) => true
   | _ => false)

/-- The embedded documents of a list-valued response field. -/
def docsOf : Option Value → List Doc
  | some (Value.vList vs) =>
      vs.filterMap fun v =>
        match v with
        | Value.vDoc dd => some dd
        | _ => none
  | _ => []

theorem lookup_keyRepl_self (d : Doc) (k : String) (v : Value) :
    List.lookup k (d.map fun kv => if kv.1 == k then (k, v) else kv) =
      (List.lookup k d).map fun _ => v := by
  induction d with
  | nil => rfl
  | cons kv t ih =>
    simp only [List.map_cons]
    by_cases hk : kv.1 = k
    · rw [if_pos (beq_iff_eq.mpr hk)]
      have h1 : (k == kv.1) = true := beq_iff_eq.mpr hk.symm
      simp [List.lookup, h1]
    · rw [if_neg (by simp [hk] : ¬ ((kv.1 == k) = true))]
      have h1 : (k == kv.1) = false :=
        beq_eq_false_iff_ne.mpr fun hh => hk hh.symm
      simp only [List.lookup, h1]
      exact ih

theorem lookup_some_of_any (d : Doc) (k : String)
    (h : (d.any fun kv => kv.1 == k) = true) :
    ∃ w, List.lookup k d = some w := by
  induction d with
  | nil => simp at h
  | cons kv t ih =>
    by_cases hk : kv.1 = k
    · exact ⟨kv.2, by simp [List.lookup, beq_iff_eq.mpr hk.symm]⟩
    · have h2 : (k == kv.1) = false :=
        beq_eq_false_iff_ne.mpr fun hh => hk hh.symm
      rw [List.any_cons, Bool.or_eq_true] at h
      rcases h with h | h
      · exact absurd (beq_iff_eq.mp h) hk
      · obtain ⟨w, hw⟩ := ih h
        exact ⟨w, by simp [List.lookup, h2, hw]⟩

theorem lookup_setKey_self (d : Doc) (k : String) (v : Value) :
    List.lookup k (setKey d k v) = some v := by
  unfold setKey
  by_cases ha : (d.any fun kv => kv.1 == k) = true
  · rw [if_pos ha, lookup_keyRepl_self]
    obtain ⟨w, hw⟩ := lookup_some_of_any d k ha
    rw [hw]
    rfl
  · rw [if_neg ha]
    refine lookup_fresh_append d k v ?_
    rw [List.all_eq_true]
    intro x hx
    have hfa : (d.any fun kv => kv.1 == k) = false := by
      rw [← Bool.not_eq_true]
      exact ha
    have := List.any_eq_false.mp hfa x hx
    simp [this]

theorem no_oid_removeKey (d : Doc) :
    ((removeKey d "_id").all fun kv => !(kv.1 == "_id")) = true := by
  rw [List.all_eq_true]
  intro kv hmem
  exact (List.mem_filter.mp hmem).2

theorem no_oid_setKey_id (d : Doc) (v : Value)
    (h : (d.all fun kv => !(kv.1 == "_id")) = true) :
    ((setKey d "id" v).all fun kv => !(kv.1 == "_id")) = true := by
  unfold setKey
  by_cases ha : (d.any fun kv => kv.1 == "id") = true
  · rw [if_pos ha, List.all_eq_true]
    intro kv hmem
    obtain ⟨kv0, hmem0, hrepl⟩ := List.mem_map.mp hmem
    by_cases hk : kv0.1 = "id"
    · rw [if_pos (beq_iff_eq.mpr hk)] at hrepl
      rw [← hrepl]
      rfl
    · rw [if_neg (by simp [hk] : ¬ ((kv0.1 == "id") = true))] at hrepl
      rw [← hrepl]
      exact List.all_eq_true.mp h kv0 hmem0
  · rw [if_neg ha, List.all_append]
    simp only [h, Bool.true_and]
    rfl

theorem exposedIdOk_of_oidPresent (doc : Doc) (h : oidPresent doc = true) :
    exposedIdOk (exposeId doc) = true := by
  unfold oidPresent at h
  cases hl : List.lookup "_id" doc with
  | none => rw [hl] at h; simp at h
  | some v =>
    cases v with
    | vOid n =>
      unfold exposeId
      rw [hl]
      unfold exposedIdOk
      rw [Bool.and_eq_true]
      refine ⟨no_oid_setKey_id _ _ (no_oid_removeKey doc), ?_⟩
      rw [lookup_setKey_self]
    | vStr s2 => rw [hl] at h; simp at h
    | vInt n => rw [hl] at h; simp at h
    | vFloat q => rw [hl] at h; simp at h
    | vNull => rw [hl] at h; simp at h
    | vList l2 => rw [hl] at h; simp at h
    | vDoc d2 => rw [hl] at h; simp at h

theorem mem_colls_of_mem_get_documents (s : Store) (coll : String)
    (filt : QueryFilter) (limit : Option Nat) (doc : Doc)
    (h : doc ∈ get_documents s coll filt limit) : doc ∈ s.colls coll := by
  unfold get_documents at h
  cases limit with
  | none => exact (List.mem_filter.mp h).1
  | some n => exact (List.mem_filter.mp (List.mem_of_mem_take h)).1

theorem exposed_all_of_sub (l sub : List Doc) (hall : l.all oidPresent = true)
    (hsub : ∀ x ∈ sub, x ∈ l) :
    ∀ doc ∈ sub.map exposeId, exposedIdOk doc = true := by
  intro doc hdoc
  obtain ⟨x, hx, rfl⟩ := List.mem_map.mp hdoc
  exact exposedIdOk_of_oidPresent x (List.all_eq_true.mp hall x (hsub x hx))

theorem docsOf_mk (ds : List Doc) :
    docsOf (some (Value.vList (ds.map Value.vDoc))) = ds := by
  induction ds with
  | nil => rfl
  | cons a t ih =>
    simp only [docsOf, List.map_cons, List.filterMap_cons] at ih ⊢
    rw [ih]

/-- C8: on any store in which every stored document carries an internal
identifier (the database invariant), every record returned by any read
operation — journal listing, page lookup, the three date/month listings,
and every record embedded in the day aggregate — has the internal `_id`
field removed and a plain string field `id` in its place. -/
theorem C8_identifier_translation (s : Store) (h : storeHasIds s = true)
    (limit : Nat) (jid d : String) (dateO monthO jidO : Option String) :
    (∀ doc ∈ list_journals s limit, exposedIdOk doc = true) ∧
    (∀ doc : Doc, get_page s jid d = some doc → exposedIdOk doc = true) ∧
    (∀ doc ∈ list_events s dateO monthO, exposedIdOk doc = true) ∧
    (∀ doc ∈ list_stickers s dateO monthO, exposedIdOk doc = true) ∧
    (∀ doc ∈ list_drawings s dateO monthO, exposedIdOk doc = true) ∧
    (∀ pdoc : Doc,
      List.lookup "page" (get_day s d jidO) = some (Value.vDoc pdoc) →
      exposedIdOk pdoc = true) ∧
    (∀ doc ∈ docsOf (List.lookup "events" (get_day s d jidO)),
      exposedIdOk doc = true) ∧
    (∀ doc ∈ docsOf (List.lookup "stickers" (get_day s d jidO)),
      exposedIdOk doc = true) ∧
    (∀ doc ∈ docsOf (List.lookup "drawings" (get_day s d jidO)),
      exposedIdOk doc = true) := by
  have hc : ∀ c ∈ ["journal", "journalpage", "calendarevent", "sticker",
      "drawing"], (s.colls c).all oidPresent = true :=
    List.all_eq_true.mp h
  have hj := hc "journal" (by simp)
  have hp := hc "journalpage" (by simp)
  have he := hc "calendarevent" (by simp)
  have hst := hc "sticker" (by simp)
  have hdr := hc "drawing" (by simp)
  refine ⟨?_, ?_, ?_, ?_, ?_, ?_, ?_, ?_, ?_⟩
  · exact exposed_all_of_sub _ _ hj
      (fun x hx => mem_colls_of_mem_get_documents s "journal" _ _ x hx)
  · intro doc hdoc
    unfold get_page at hdoc
    cases hq : get_documents s "journalpage" (pageFilt jid d) (some 1) with
    | nil => rw [hq] at hdoc; exact absurd hdoc (by simp)
    | cons a t =>
      rw [hq] at hdoc
      have hda : doc = exposeId a := (Option.some.inj hdoc).symm
      rw [hda]
      refine exposedIdOk_of_oidPresent a (List.all_eq_true.mp hp a ?_)
      exact mem_colls_of_mem_get_documents s "journalpage" _ _ a
        (hq ▸ List.mem_cons_self a t)
  · exact exposed_all_of_sub _ _ he
      (fun x hx => mem_colls_of_mem_get_documents s "calendarevent" _ _ x hx)
  · exact exposed_all_of_sub _ _ hst
      (fun x hx => mem_colls_of_mem_get_documents s "sticker" _ _ x hx)
  · exact exposed_all_of_sub _ _ hdr
      (fun x hx => mem_colls_of_mem_get_documents s "drawing" _ _ x hx)
  · intro pdoc hdoc
    cases hq : get_documents s "journalpage" (dayPageFilt jidO d) (some 1) with
    | nil =>
      rw [show get_day s d jidO =
        [("date", Value.vStr d), ("page", Value.vNull),
         ("events", Value.vList (((get_documents s "calendarevent"
            [("date", .eqStr d)] none).map exposeId).map Value.vDoc)),
         ("stickers", Value.vList (((get_documents s "sticker"
            [("date", .eqStr d)] none).map exposeId).map Value.vDoc)),
         ("drawings", Value.vList (((get_documents s "drawing"
            [("date", .eqStr d)] none).map exposeId).map Value.vDoc))]
        from by simp [get_day, hq]] at hdoc
      simp [List.lookup] at hdoc
    | cons a t =>
      rw [show get_day s d jidO =
        [("date", Value.vStr d), ("page", Value.vDoc (exposeId a)),
         ("events", Value.vList (((get_documents s "calendarevent"
            [("date", .eqStr d)] none).map exposeId).map Value.vDoc)),
         ("stickers", Value.vList (((get_documents s "sticker"
            [("date", .eqStr d)] none).map exposeId).map Value.vDoc)),
         ("drawings", Value.vList (((get_documents s "drawing"
            [("date", .eqStr d)] none).map exposeId).map Value.vDoc))]
        from by simp [get_day, hq]] at hdoc
      simp only [List.lookup] at hdoc
      have hda : pdoc = exposeId a :=
        (Value.vDoc.inj (Option.some.inj hdoc)).symm
      rw [hda]
      refine exposedIdOk_of_oidPresent a (List.all_eq_true.mp hp a ?_)
      exact mem_colls_of_mem_get_documents s "journalpage" _ _ a
        (hq ▸ List.mem_cons_self a t)
  · intro doc hdoc
    have hlk : List.lookup "events" (get_day s d jidO) =
        some (Value.vList (((get_documents s "calendarevent"
          [("date", .eqStr d)] none).map exposeId).map Value.vDoc)) := by
      cases hq : get_documents s "journalpage" (dayPageFilt jidO d) (some 1) with
      | nil => simp [get_day, hq, List.lookup]
      | cons a t => simp [get_day, hq, List.lookup]
    rw [hlk, docsOf_mk] at hdoc
    exact exposed_all_of_sub _ _ he
      (fun x hx => mem_colls_of_mem_get_documents s "calendarevent" _ _ x hx)
      doc hdoc
  · intro doc hdoc
    have hlk : List.lookup "stickers" (get_day s d jidO) =
        some (Value.vList (((get_documents s "sticker"
          [("date", .eqStr d)] none).map exposeId).map Value.vDoc)) := by
      cases hq : get_documents s "journalpage" (dayPageFilt jidO d) (some 1) with
      | nil => simp [get_day, hq, List.lookup]
      | cons a t => simp [get_day, hq, List.lookup]
    rw [hlk, docsOf_mk] at hdoc
    exact exposed_all_of_sub _ _ hst
      (fun x hx => mem_colls_of_mem_get_documents s "sticker" _ _ x hx)
      doc hdoc
  · intro doc hdoc
    have hlk : List.lookup "drawings" (get_day s d jidO) =
        some (Value.vList (((get_documents s "drawing"
          [("date", .eqStr d)] none).map exposeId).map Value.vDoc)) := by
      cases hq : get_documents s "journalpage" (dayPageFilt jidO d) (some 1) with
      | nil => simp [get_day, hq, List.lookup]
      | cons a t => simp [get_day, hq, List.lookup]
    rw [hlk, docsOf_mk] at hdoc
    exact exposed_all_of_sub _ _ hdr
      (fun x hx => mem_colls_of_mem_get_documents s "drawing" _ _ x hx)
      doc hdoc

/-- Witness for C8: on the spec §8 demo store the record returned by the
date-filtered event listing is in the exposed identifier shape. -/
theorem C8_witness : exposedIdOk (exposeId evMarch) = true :=
  (C8_identifier_translation demoStore rfl 50 "j" "2024-03-05"
    (some "2024-03-05") none none).2.2.1 (exposeId evMarch)
    (List.Mem.head _)
